import Mathlib

/-!
Verification of the document-chunking and large-document reduction pipeline of the
DesignReviewAutomation repository.

The repository contains two near-identical implementations of the pipeline:
`src/design_reviewer.py` (whose `_summarize_chunk` swallows summarization failures and
falls back to the original chunk) and `src/design_review_automation/design_reviewer.py`
(whose `_summarize_chunk` propagates failures as typed errors).  The functions
`_estimate_tokens` and `_chunk_document` are line-identical in the two variants and are
embedded once; the two `_summarize_chunk` / `_process_large_document` variants are
embedded separately.

Documents are embedded as lists of characters (Python strings are sequences of Unicode
code points, as is `List Char`); "byte-identical" is list equality.  The external
summarization service is a parameter `call : Text → Option Text`, where `none` models a
failed request.  `_process_large_document` additionally returns the list of chunks on
which an external summarization request was made, in order, so that claims about the
number and order of external calls can be stated.
-/

namespace DesignReview

/-- A document, paragraph or chunk text: a Python string as a sequence of characters. -/
abbrev Text := List Char

/-- Convenience conversion from Lean string literals. -/
def txt (s : String) : Text := s.data

/-- The paragraph separator `'\n\n'` used by `_chunk_document` and by the joins in
`_process_large_document`. -/
def sep : Text := ['\n', '\n']

/-- Embeds `_estimate_tokens` (identical in both variants):
`return len(text) // 4`. -/
def estimate_tokens (text : Text) : Nat := text.length / 4

/-- Embeds Python's `text.split('\n\n')` (the paragraph split in `_chunk_document`):
scan left to right, cutting at each non-overlapping occurrence of the two-character
separator.  `acc` is the portion of the current paragraph read so far; the top-level
call is `splitParas text []`.  Like Python's `str.split`, the result is never empty
and `''.split('\n\n') == ['']`. -/
def splitParas : Text → Text → List Text
  | [], acc => [acc]
  | [c], acc => [acc ++ [c]]
  | c₁ :: c₂ :: cs, acc =>
    if c₁ = '\n' ∧ c₂ = '\n' then acc :: splitParas cs []
    else splitParas (c₂ :: cs) (acc ++ [c₁])

/-- Embeds Python's `'\n\n'.join(strings)`. -/
def joinSep : List Text → Text
  | [] => []
  | [t] => t
  | t :: ts => t ++ sep ++ joinSep ts

/-- The paragraph-accumulation loop of `_chunk_document` (identical in both variants),
at the level of paragraph lists: `cur` is `current_chunk` (in order), `size` is
`current_size`, and each emitted element is the paragraph list that the source joins
with `'\n\n'` when appending to `chunks`.  The budget is an `Int` because Python's
`max_chunk_size` is an arbitrary integer and the comparison
`current_size + para_tokens > self.max_chunk_size` is an integer comparison. -/
def chunkDocAux (budget : Int) : List Text → List Text → Nat → List (List Text)
  | [], cur, _ => if cur.isEmpty then [] else [cur]
  | p :: ps, cur, size =>
    let pt := estimate_tokens p
    if budget < ((size + pt : Nat) : Int) then
      if cur.isEmpty then chunkDocAux budget ps [p] pt
      else cur :: chunkDocAux budget ps [p] pt
    else
      chunkDocAux budget ps (cur ++ [p]) (size + pt)

/-- The chunks of `_chunk_document` as paragraph lists, before each chunk is joined
with `'\n\n'`. -/
def chunkParas (budget : Int) (text : Text) : List (List Text) :=
  chunkDocAux budget (splitParas text []) [] 0

/-- Embeds `_chunk_document` (identical in both variants): split the document on
`'\n\n'`, accumulate paragraphs greedily against the budget, and join each finished
chunk with `'\n\n'`.  The source joins each chunk at the moment it is appended to
`chunks`; joining every emitted chunk afterwards is the same computation. -/
def chunk_document (budget : Int) (text : Text) : List Text :=
  (chunkParas budget text).map joinSep

/-- Embeds `_summarize_chunk` from `src/design_reviewer.py` (the fallback variant):
one external summarization request per chunk; on failure the original chunk is
returned (`except Exception: ... return chunk`), so the function is total. -/
def summarize_chunk (call : Text → Option Text) (chunk : Text) : Text :=
  match call chunk with
  | some s => s
  | none => chunk

/-- Embeds `_process_large_document` from `src/design_reviewer.py` (the fallback
variant).  First component: the returned text.  Second component: the chunks on which
an external summarization request was made, in order (empty in the small-document
branch, which performs no external call).  The function is total because the fallback
`_summarize_chunk` never raises. -/
def process_large_document (call : Text → Option Text) (budget : Int) (doc : Text) :
    Text × List Text :=
  if (estimate_tokens doc : Int) ≤ budget then (doc, [])
  else
    let chunks := chunk_document budget doc
    (joinSep (chunks.map (summarize_chunk call)), chunks)

/-- The per-chunk loop of `_process_large_document` from
`src/design_review_automation/design_reviewer.py` (the propagate variant): chunks are
summarized strictly in order; the `_summarize_chunk` of this variant re-raises request
failures as typed errors, so the loop aborts at the first failed chunk.  First
component: the summaries, or the propagated error.  Second component: the chunks on
which an external request was made, in order. -/
def processChunksStrict (call : Text → Option Text) :
    List Text → Except Unit (List Text) × List Text
  | [] => (Except.ok [], [])
  | c :: cs =>
    match call c with
    | none => (Except.error (), [c])
    | some s =>
      match processChunksStrict call cs with
      | (Except.ok l, tr) => (Except.ok (s :: l), c :: tr)
      | (Except.error e, tr) => (Except.error e, c :: tr)

/-- Embeds `_process_large_document` from
`src/design_review_automation/design_reviewer.py` (the propagate variant): as the
fallback variant, except that a failed summarization aborts the run with an error
(`DocumentProcessingError` in the source, modelled as `Except.error ()`). -/
def process_large_document_strict (call : Text → Option Text) (budget : Int)
    (doc : Text) : Except Unit Text × List Text :=
  if (estimate_tokens doc : Int) ≤ budget then (Except.ok doc, [])
  else
    match processChunksStrict call (chunk_document budget doc) with
    | (Except.ok l, tr) => (Except.ok (joinSep l), tr)
    | (Except.error e, tr) => (Except.error e, tr)

/-- The constructor state relevant to the token budget. -/
structure DesignReviewAgent where
  prompt_templates_dir : Option String
  max_chunk_size : Int
deriving DecidableEq

/-- Embeds `DesignReviewAgent.__init__` (both variants) with respect to the token
budget: `self.max_chunk_size = max_chunk_size` is executed unconditionally, with no
validation of the value in either variant.  The OpenAI-client setup of the
`design_review_automation` variant can raise, but only for reasons unrelated to the
budget (missing API key); construction is modelled for a successfully created client,
where it always succeeds and stores the budget exactly as given. -/
def agentInit (dir : Option String) (maxChunkSize : Int) :
    Except Unit DesignReviewAgent :=
  Except.ok ⟨dir, maxChunkSize⟩

/-! ### Helper lemmas -/

theorem splitParas_ne_nil (t acc : Text) : splitParas t acc ≠ [] := by
  induction t, acc using splitParas.induct with
  | case1 acc => simp [splitParas]
  | case2 c acc => simp [splitParas]
  | case3 c₁ c₂ cs acc h ih => simp [splitParas, h]
  | case4 c₁ c₂ cs acc h ih => simpa [splitParas, h] using ih

theorem joinSep_cons (a : Text) (l : List Text) (h : l ≠ []) :
    joinSep (a :: l) = a ++ sep ++ joinSep l := by
  cases l with
  | nil => exact absurd rfl h
  | cons b t => rfl

theorem joinSep_splitParas (t acc : Text) : joinSep (splitParas t acc) = acc ++ t := by
  induction t, acc using splitParas.induct with
  | case1 acc => simp [splitParas, joinSep]
  | case2 c acc => simp [splitParas, joinSep]
  | case3 c₁ c₂ cs acc h ih =>
    obtain ⟨h₁, h₂⟩ := h
    subst h₁; subst h₂
    rw [splitParas, if_pos ⟨rfl, rfl⟩,
      joinSep_cons _ _ (splitParas_ne_nil cs []), ih]
    simp [sep]
  | case4 c₁ c₂ cs acc h ih =>
    rw [splitParas, if_neg h, ih]
    simp

theorem joinSep_append (part rest : List Text) (h1 : part ≠ []) (h2 : rest ≠ []) :
    joinSep (part ++ rest) = joinSep part ++ sep ++ joinSep rest := by
  induction part with
  | nil => exact absurd rfl h1
  | cons t part ih =>
    cases part with
    | nil => simp [joinSep_cons t rest h2, joinSep]
    | cons u part =>
      rw [List.cons_append, joinSep_cons t ((u :: part) ++ rest) (by simp),
        ih (by simp), joinSep_cons t (u :: part) (by simp)]
      simp

theorem join_ne_nil_of_forall_ne_nil (parts : List (List Text)) (hne : parts ≠ [])
    (h : ∀ part ∈ parts, part ≠ []) : parts.flatten ≠ [] := by
  cases parts with
  | nil => exact absurd rfl hne
  | cons q rest =>
    have hq : q ≠ [] := h q (by simp)
    cases q with
    | nil => exact absurd rfl hq
    | cons c cs => simp [List.flatten]

theorem joinSep_map_join (parts : List (List Text))
    (h : ∀ part ∈ parts, part ≠ []) :
    joinSep (parts.map joinSep) = joinSep parts.flatten := by
  induction parts with
  | nil => simp [joinSep]
  | cons part parts ih =>
    cases parts with
    | nil => simp [joinSep, List.flatten]
    | cons part₂ parts₂ =>
      have hpart : part ≠ [] := h part (by simp)
      have hrest : ∀ q ∈ part₂ :: parts₂, q ≠ [] := fun q hq => h q (by simp [hq])
      have hjoin : (part₂ :: parts₂).flatten ≠ [] :=
        join_ne_nil_of_forall_ne_nil _ (by simp) hrest
      have hfc : (part :: part₂ :: parts₂).flatten = part ++ (part₂ :: parts₂).flatten :=
        List.flatten_cons ..
      rw [List.map_cons, joinSep_cons _ _ (by simp), ih hrest, hfc,
        joinSep_append part (part₂ :: parts₂).flatten hpart hjoin]

theorem chunkDocAux_join (budget : Int) (ps : List Text) (cur : List Text)
    (size : Nat) : (chunkDocAux budget ps cur size).flatten = cur ++ ps := by
  induction ps generalizing cur size with
  | nil =>
    cases cur with
    | nil => simp [chunkDocAux]
    | cons p t => simp [chunkDocAux]
  | cons p ps ih =>
    rw [chunkDocAux]
    split
    · cases cur with
      | nil => simpa [List.isEmpty] using ih [p] (estimate_tokens p)
      | cons q t =>
        rw [if_neg (by simp [List.isEmpty])]
        simp [ih [p] (estimate_tokens p)]
    · simpa using ih (cur ++ [p]) _

theorem chunkDocAux_ne_nil (budget : Int) (ps : List Text) (cur : List Text)
    (size : Nat) (hcur : cur = [] ∨ cur ≠ []) :
    ∀ c ∈ chunkDocAux budget ps cur size, c ≠ [] := by
  induction ps generalizing cur size with
  | nil =>
    intro c hc
    cases cur with
    | nil => simp [chunkDocAux] at hc
    | cons q t =>
      simp [chunkDocAux] at hc
      simp [hc]
  | cons p ps ih =>
    intro c hc
    rw [chunkDocAux] at hc
    split at hc
    · cases cur with
      | nil =>
        rw [if_pos (by simp [List.isEmpty])] at hc
        exact ih [p] (estimate_tokens p) (Or.inr (by simp)) c hc
      | cons q t =>
        rw [if_neg (by simp [List.isEmpty])] at hc
        rcases List.mem_cons.mp hc with h | h
        · simp [h]
        · exact ih [p] (estimate_tokens p) (Or.inr (by simp)) c h
    · exact ih (cur ++ [p]) _ (Or.inr (by simp)) c hc

theorem chunkDocAux_bounded (budget : Int) (ps : List Text) (cur : List Text)
    (size : Nat) (hsize : size = (cur.map estimate_tokens).sum)
    (hinv : cur = [] ∨ (size : Int) ≤ budget ∨ cur.length = 1) :
    ∀ c ∈ chunkDocAux budget ps cur size,
      ((c.map estimate_tokens).sum : Int) ≤ budget ∨
        (c.length = 1 ∧ budget < ((c.map estimate_tokens).sum : Int)) := by
  induction ps generalizing cur size with
  | nil =>
    intro c hc
    cases cur with
    | nil => simp [chunkDocAux] at hc
    | cons q t =>
      simp [chunkDocAux] at hc
      subst hc
      rcases hinv with h | h | h
      · exact absurd h (by simp)
      · exact Or.inl (hsize ▸ h)
      · rcases lt_or_le budget (((((q :: t).map estimate_tokens).sum : Nat)) : Int) with
          hgt | hle
        · exact Or.inr ⟨h, hgt⟩
        · exact Or.inl hle
  | cons p ps ih =>
    intro c hc
    rw [chunkDocAux] at hc
    split at hc
    · cases cur with
      | nil =>
        rw [if_pos (by simp [List.isEmpty])] at hc
        exact ih [p] (estimate_tokens p) (by simp) (Or.inr (Or.inr rfl)) c hc
      | cons q t =>
        rw [if_neg (by simp [List.isEmpty])] at hc
        rcases List.mem_cons.mp hc with h | h
        · subst h
          rcases hinv with h | h | h
          · exact absurd h (by simp)
          · exact Or.inl (hsize ▸ h)
          · rcases lt_or_le budget (((((q :: t).map estimate_tokens).sum : Nat)) : Int)
              with hgt | hle
            · exact Or.inr ⟨h, hgt⟩
            · exact Or.inl hle
        · exact ih [p] (estimate_tokens p) (by simp) (Or.inr (Or.inr rfl)) c h
    · rename_i hle
      refine ih (cur ++ [p]) (size + estimate_tokens p) ?_ ?_ c hc
      · simp [hsize]
      · exact Or.inr (Or.inl (le_of_not_lt hle))

theorem getD_map_of_lt (f : Text → Text) (l : List Text) (i : Nat)
    (h : i < l.length) : (l.map f).getD i [] = f (l.getD i []) := by
  induction l generalizing i with
  | nil => simp at h
  | cons a t ih =>
    cases i with
    | zero => simp
    | succ j => simpa using ih j (by simpa using h)

theorem processChunksStrict_stops (call : Text → Option Text) (l : List Text)
    (k : Nat) (hk : k < l.length) (hfail : call (l.getD k []) = none)
    (hbefore : ∀ j, j < k → (call (l.getD j [])).isSome) :
    processChunksStrict call l = (Except.error (), l.take (k + 1)) := by
  induction l generalizing k with
  | nil => simp at hk
  | cons a t ih =>
    cases k with
    | zero =>
      simp only [List.getD_cons_zero] at hfail
      simp [processChunksStrict, hfail]
    | succ m =>
      have ha : (call a).isSome := by
        have := hbefore 0 (Nat.succ_pos m)
        simpa using this
      obtain ⟨s, hs⟩ := Option.isSome_iff_exists.mp ha
      have hrec : processChunksStrict call t = (Except.error (), t.take (m + 1)) := by
        refine ih m (by simpa using hk) (by simpa using hfail) ?_
        intro j hj
        have := hbefore (j + 1) (Nat.succ_lt_succ hj)
        simpa using this
      simp [processChunksStrict, hs, hrec]

theorem summarize_chunk_of_none (call : Text → Option Text) (c : Text)
    (h : call c = none) : summarize_chunk call c = c := by
  simp [summarize_chunk, h]

theorem summarize_chunk_of_some (call : Text → Option Text) (c s : Text)
    (h : call c = some s) : summarize_chunk call c = s := by
  simp [summarize_chunk, h]

/-- A summarization service that fails exactly on the chunk `"bbbb"` and returns the
summary `"S"` for every other chunk; used to instantiate the failure scenarios. -/
def callFailSecond : Text → Option Text :=
  fun c => if c = txt "bbbb" then none else some (txt "S")

/-! ### Claim theorems -/

/-- C1: for every document whose estimated token size is at most the budget, both
variants of `_process_large_document` return the document unchanged (byte-identical,
i.e. equal as character sequences) and perform zero external summarization calls (the
returned call trace is empty). -/
theorem claim1_small_document_unchanged (call : Text → Option Text) (budget : Int)
    (doc : Text) (h : (estimate_tokens doc : Int) ≤ budget) :
    process_large_document call budget doc = (doc, []) ∧
    process_large_document_strict call budget doc = (Except.ok doc, []) := by
  constructor <;>
    simp [process_large_document, process_large_document_strict, h]

/-- Witness for C1: a 5-character document against the default budget 8000 is
returned unchanged with no external call, in both variants. -/
theorem claim1_witness :
    ((estimate_tokens (txt "hello") : Int) ≤ 8000) ∧
    (process_large_document (fun _ => none) 8000 (txt "hello") = (txt "hello", []) ∧
      process_large_document_strict (fun _ => none) 8000 (txt "hello") =
        (Except.ok (txt "hello"), [])) :=
  ⟨by decide,
    claim1_small_document_unchanged (fun _ => none) 8000 (txt "hello") (by decide)⟩

/-- C2 counterexample: with budget 1 and document `"aaa\n\nbbb"`, the chunker produces
the single chunk `"aaa\n\nbbb"`, whose joined text has estimated size 2 > 1 although
it consists of two paragraphs, each of estimated size 0 ≤ 1.  The accumulator of
`_chunk_document` tracks the sum of per-paragraph estimates and never accounts for the
two separator characters reinserted between paragraphs, so the estimate of the joined
chunk text can exceed the budget even for multi-paragraph chunks. -/
theorem claim2_counterexample :
    ¬ (∀ c ∈ chunk_document 1 (txt "aaa\n\nbbb"),
        (estimate_tokens c : Int) ≤ 1 ∨
          (splitParas c [] = [c] ∧ 1 < (estimate_tokens c : Int))) := by
  decide

/-- C2 amended: for every document and every positive budget, every chunk produced by
`_chunk_document` has the SUM of its paragraphs' estimated token sizes (the quantity
the source accumulates in `current_size`, which ignores the reinserted `'\n\n'`
separators) at most the budget, except chunks consisting of exactly one paragraph
whose own estimated size already exceeds the budget. -/
theorem claim2_chunk_size_invariant (budget : Int) (text : Text)
    (_hb : 0 < budget) :
    ∀ c ∈ chunkParas budget text,
      ((c.map estimate_tokens).sum : Int) ≤ budget ∨
        (c.length = 1 ∧ budget < ((c.map estimate_tokens).sum : Int)) :=
  fun c hc =>
    chunkDocAux_bounded budget (splitParas text []) [] 0 (by simp)
      (Or.inl rfl) c hc

/-- Witness for C2 amended: budget 1 and document `"aaaa\n\nbbbb"`. -/
theorem claim2_witness :
    ((0 : Int) < 1) ∧
    (∀ c ∈ chunkParas 1 (txt "aaaa\n\nbbbb"),
      ((c.map estimate_tokens).sum : Int) ≤ 1 ∨
        (c.length = 1 ∧ 1 < ((c.map estimate_tokens).sum : Int))) :=
  ⟨by decide, claim2_chunk_size_invariant 1 (txt "aaaa\n\nbbbb") (by decide)⟩

/-- C3: for every document and budget, `_chunk_document` is the paragraph-level
chunking followed by joining each chunk, and concatenating the paragraph sequences of
all chunks, in chunk order, yields exactly the document's split on `'\n\n'`: no
paragraph is lost, duplicated, reordered, or split across two chunks. -/
theorem claim3_paragraph_partition (budget : Int) (text : Text) :
    chunk_document budget text = (chunkParas budget text).map joinSep ∧
    (chunkParas budget text).flatten = splitParas text [] :=
  ⟨rfl, by simpa using chunkDocAux_join budget (splitParas text []) [] 0⟩

/-- C4 counterexample: on the empty document the chunker does NOT return an empty
chunk sequence: Python's `''.split('\n\n')` is `['']`, the empty paragraph fits any
positive budget, and the final flush emits it, so `_chunk_document` returns the
one-element sequence `['']`. -/
theorem claim4_counterexample :
    chunk_document 8000 (txt "") = [txt ""] ∧ chunk_document 8000 (txt "") ≠ [] := by
  decide

/-- C4 amended: for every positive budget, the chunker maps the empty document to the
one-element chunk sequence containing the empty chunk. -/
theorem claim4_empty_document (budget : Int) (hb : 0 < budget) :
    chunk_document budget [] = [[]] := by
  have hcond : ¬ (budget < ((0 + estimate_tokens ([] : Text) : Nat) : Int)) := by
    simp [estimate_tokens]
    exact le_of_lt hb
  simp [chunk_document, chunkParas, splitParas, chunkDocAux, hcond, joinSep]

/-- Witness for C4 amended: the default budget 8000. -/
theorem claim4_witness : ((0 : Int) < 8000) ∧ chunk_document 8000 [] = [[]] :=
  ⟨by decide, claim4_empty_document 8000 (by decide)⟩

/-- C5 counterexample: constructing the agent with the non-positive budget 0 does not
fail: neither variant's `__init__` inspects `max_chunk_size`, so construction succeeds
and stores 0 unchanged. -/
theorem claim5_counterexample :
    agentInit none 0 = Except.ok ⟨none, 0⟩ ∧ agentInit none 0 ≠ Except.error () :=
  ⟨rfl, by simp [agentInit]⟩

/-- C5 amended: construction accepts every budget, including non-positive ones,
storing it unchanged; no validation, rejection or clamping occurs at construction
time. -/
theorem claim5_budget_not_validated (dir : Option String) (b : Int) :
    agentInit dir b = Except.ok ⟨dir, b⟩ := rfl

/-- C6: under the fallback policy (`src/design_reviewer.py`), if the external
summarization call fails for one chunk of an over-budget document, the output of
`_process_large_document` is the separator-join of the per-chunk results, in which the
failed chunk appears as its original text verbatim at its original position and every
successfully summarized chunk appears as its summary; no exception reaches the caller
(this variant of the pipeline is a total function). -/
theorem claim6_fallback_substitutes_original (call : Text → Option Text)
    (budget : Int) (doc : Text) (hbig : budget < (estimate_tokens doc : Int))
    (i : Nat) (hi : i < (chunk_document budget doc).length)
    (hfail : call ((chunk_document budget doc).getD i []) = none) :
    (process_large_document call budget doc).1 =
        joinSep ((chunk_document budget doc).map (summarize_chunk call)) ∧
    ((chunk_document budget doc).map (summarize_chunk call)).getD i [] =
        (chunk_document budget doc).getD i [] ∧
    ∀ j, j < (chunk_document budget doc).length → ∀ s,
        call ((chunk_document budget doc).getD j []) = some s →
        ((chunk_document budget doc).map (summarize_chunk call)).getD j [] = s := by
  refine ⟨?_, ?_, ?_⟩
  · simp [process_large_document, not_le.mpr hbig]
  · rw [getD_map_of_lt _ _ i hi, summarize_chunk_of_none _ _ hfail]
  · intro j hj s hs
    rw [getD_map_of_lt _ _ j hj, summarize_chunk_of_some _ _ _ hs]

/-- Witness for C6: budget 1 and document `"aaaa\n\nbbbb"` give the two chunks
`["aaaa", "bbbb"]`; the service fails on `"bbbb"` (index 1), which therefore survives
verbatim at index 1 while every successfully summarized chunk is replaced. -/
theorem claim6_witness :
    ((1 : Int) < (estimate_tokens (txt "aaaa\n\nbbbb") : Int)) ∧
    (1 < (chunk_document 1 (txt "aaaa\n\nbbbb")).length) ∧
    (callFailSecond ((chunk_document 1 (txt "aaaa\n\nbbbb")).getD 1 []) = none) ∧
    ((process_large_document callFailSecond 1 (txt "aaaa\n\nbbbb")).1 =
        joinSep ((chunk_document 1 (txt "aaaa\n\nbbbb")).map
          (summarize_chunk callFailSecond)) ∧
      ((chunk_document 1 (txt "aaaa\n\nbbbb")).map
          (summarize_chunk callFailSecond)).getD 1 [] =
        (chunk_document 1 (txt "aaaa\n\nbbbb")).getD 1 [] ∧
      ∀ j, j < (chunk_document 1 (txt "aaaa\n\nbbbb")).length → ∀ s,
        callFailSecond ((chunk_document 1 (txt "aaaa\n\nbbbb")).getD j []) = some s →
        ((chunk_document 1 (txt "aaaa\n\nbbbb")).map
          (summarize_chunk callFailSecond)).getD j [] = s) :=
  ⟨by decide, by decide, by decide,
    claim6_fallback_substitutes_original callFailSecond 1 (txt "aaaa\n\nbbbb")
      (by decide) 1 (by decide) (by decide)⟩

/-- C7: under the propagate policy (`src/design_review_automation/design_reviewer.py`),
if the external summarization call fails for chunk `k` of an over-budget document
(after succeeding on all earlier chunks), `_process_large_document` surfaces an error
to the caller, and the external calls made are exactly the first `k + 1` chunks in
order: no chunk after `k` is ever processed. -/
theorem claim7_propagate_aborts (call : Text → Option Text) (budget : Int)
    (doc : Text) (hbig : budget < (estimate_tokens doc : Int)) (k : Nat)
    (hk : k < (chunk_document budget doc).length)
    (hfail : call ((chunk_document budget doc).getD k []) = none)
    (hbefore : ∀ j, j < k → (call ((chunk_document budget doc).getD j [])).isSome) :
    (process_large_document_strict call budget doc).1 = Except.error () ∧
    (process_large_document_strict call budget doc).2 =
      (chunk_document budget doc).take (k + 1) := by
  have hstop :=
    processChunksStrict_stops call (chunk_document budget doc) k hk hfail hbefore
  constructor <;>
    simp [process_large_document_strict, not_le.mpr hbig, hstop]

/-- Witness for C7: budget 1 and document `"aaaa\n\nbbbb\n\ncccc"` give three chunks
`["aaaa", "bbbb", "cccc"]`; the service fails on chunk 1 (`"bbbb"`), the run aborts
with an error, and exactly the first two chunks were attempted — `"cccc"` is never
processed. -/
theorem claim7_witness :
    ((1 : Int) < (estimate_tokens (txt "aaaa\n\nbbbb\n\ncccc") : Int)) ∧
    (1 < (chunk_document 1 (txt "aaaa\n\nbbbb\n\ncccc")).length) ∧
    (callFailSecond ((chunk_document 1 (txt "aaaa\n\nbbbb\n\ncccc")).getD 1 []) =
      none) ∧
    (∀ j, j < 1 →
      (callFailSecond
        ((chunk_document 1 (txt "aaaa\n\nbbbb\n\ncccc")).getD j [])).isSome) ∧
    ((process_large_document_strict callFailSecond 1
        (txt "aaaa\n\nbbbb\n\ncccc")).1 = Except.error () ∧
      (process_large_document_strict callFailSecond 1
        (txt "aaaa\n\nbbbb\n\ncccc")).2 =
        (chunk_document 1 (txt "aaaa\n\nbbbb\n\ncccc")).take 2) :=
  ⟨by decide, by decide, by decide, by decide,
    claim7_propagate_aborts callFailSecond 1 (txt "aaaa\n\nbbbb\n\ncccc")
      (by decide) 1 (by decide) (by decide) (by decide)⟩

/-- C8: for every document that is a single paragraph (its split on `'\n\n'` is the
document itself) whose estimated size exceeds the budget, the chunker yields exactly
one chunk containing that whole paragraph — the oversized chunk is allowed through —
and the fallback controller still makes an external summarization call on it (the call
trace is exactly that one chunk). -/
theorem claim8_oversized_single_paragraph (call : Text → Option Text) (budget : Int)
    (text : Text) (hpara : splitParas text [] = [text])
    (hbig : budget < (estimate_tokens text : Int)) :
    chunk_document budget text = [text] ∧
    (process_large_document call budget text).2 = [text] := by
  have hchunk : chunk_document budget text = [text] := by
    have hcond : budget < ((0 + estimate_tokens text : Nat) : Int) := by
      simpa using hbig
    simp [chunk_document, chunkParas, hpara, chunkDocAux, hcond, joinSep]
  exact ⟨hchunk, by simp [process_large_document, not_le.mpr hbig, hchunk]⟩

set_option maxRecDepth 8192 in
/-- Witness for C8: budget 10 and a single 500-character paragraph (estimated size
125): the chunker emits it as one oversized chunk and the controller summarizes it. -/
theorem claim8_witness :
    (splitParas (List.replicate 500 'a') [] = [List.replicate 500 'a']) ∧
    ((10 : Int) < (estimate_tokens (List.replicate 500 'a') : Int)) ∧
    (chunk_document 10 (List.replicate 500 'a') = [List.replicate 500 'a'] ∧
      (process_large_document (fun _ => some (txt "S")) 10
        (List.replicate 500 'a')).2 = [List.replicate 500 'a']) :=
  ⟨by decide, by decide,
    claim8_oversized_single_paragraph (fun _ => some (txt "S")) 10
      (List.replicate 500 'a') (by decide) (by decide)⟩

/-- C9: `_estimate_tokens` returns the character count divided by 4 with integer floor
division, and that value is a non-negative integer.  The function is embedded as a
pure Lean function of the text alone, which is exactly the determinism and
side-effect-freedom the source exhibits (`len(text) // 4` reads no state); in
particular estimating the same text twice yields the same integer. -/
theorem claim9_estimator (text : Text) :
    estimate_tokens text = text.length / 4 ∧
    (0 : Int) ≤ (estimate_tokens text : Int) ∧
    estimate_tokens text = estimate_tokens text :=
  ⟨rfl, Int.natCast_nonneg _, rfl⟩

/-- C10: for every document (including texts with irregular runs of blank lines) and
every budget, joining the chunk sequence of `_chunk_document` with `'\n\n'`
reconstructs the original text exactly, character for character.  Python's
`str.split`/`str.join` round-trip is exact — irregular separator spacing survives
inside the split paragraphs — so reassembly is not merely a lossy normalization. -/
theorem claim10_roundtrip (budget : Int) (text : Text) :
    joinSep (chunk_document budget text) = text := by
  unfold chunk_document chunkParas
  rw [joinSep_map_join _
    (chunkDocAux_ne_nil budget (splitParas text []) [] 0 (Or.inl rfl))]
  have hflat : (chunkDocAux budget (splitParas text []) [] 0).flatten =
      splitParas text [] := by
    simpa using chunkDocAux_join budget (splitParas text []) [] 0
  rw [hflat]
  simpa using joinSep_splitParas text []

end DesignReview
